import Mathlib

/-!
# Quiet background processes: the session manager

A shallow embedding of
`src/tools/QuietBackgroundProcesses/DevHome.QuietBackgroundProcesses.ElevatedServer/QuietBackgroundProcessesSession.cpp`.

The four COM entry points `Start`, `Stop`, `get_IsActive` and
`get_TimeLeftInSeconds` all run under `g_mutex`, so each is one atomic step on
the global `g_activeTimer` (a `std::unique_ptr<TimedQuietSession>`, here an
`Option`).  Every step returns the `HRESULT`, the value left in the
out-parameter, the new `g_activeTimer` and the list of calls it made on its
collaborators, in program order.

`TimedQuietSession.h` is not part of the sources at hand, so the session class
is a parameter of the development (`SessionOps`), each member of which may
throw; every entry point is a function-try-block ending in `CATCH_RETURN()`, so
a throw at any call ends the step there with a failure code.  A concrete
session following the prose specification (`TimedQuietSession`, `specOps`) and
variants of it in which one member throws are used to evaluate the manager on
concrete inputs.
-/

namespace QuietBackgroundProcesses

/-! ## Result codes -/

/-- Result code of a COM method: `S_OK`, or the failure code that
`CATCH_RETURN()` derives from a caught exception. -/
inductive HRESULT where
  | S_OK
  | failure (code : Int)
  deriving DecidableEq, Repr

/-- The macro `CATCH_RETURN()`: a caught exception becomes a failure code. -/
def CATCH_RETURN (exn : Int) : HRESULT := HRESULT.failure exn

/-- The constant `DEFAULT_QUIET_DURATION = std::chrono::hours(2)`, as the count
of the `std::chrono::seconds` it is converted to. -/
def DEFAULT_QUIET_DURATION : Int := 2 * 3600

/-- The C library constant `RAND_MAX` of the platform the server is built for:
`rand()` returns a value in `0 .. RAND_MAX`. -/
def RAND_MAX : Nat := 32767

/-! ## The session class as a parameter -/

/-- What `TimedQuietSession::Cancel(result)` leaves behind: the session object
after the call, the table pointer stored through `result` (`none` when nothing
was stored, the pointer having been null before), and the exception thrown, if
any. -/
structure CancelResult (σ Table : Type) where
  session : σ
  table : Option Table
  error : Option Int

/-- The members of `TimedQuietSession` that the manager uses.  `now` is the
clock reading during the call.  `construct` is `new TimedQuietSession(placebo,
duration)`.  Every member may throw; the two queries are reads, which either
return a value or throw and leave the session as it was. -/
structure SessionOps (σ Table : Type) where
  construct : Bool → Int → Nat → Except Int σ
  Cancel : σ → Bool → Nat → CancelResult σ Table
  IsActive : σ → Nat → Except Int Bool
  TimeLeftInSeconds : σ → Nat → Except Int Int

/-- A call made by the manager on one of its collaborators. -/
inductive Call (σ : Type) where
  | cancel (s : σ) (wantTable : Bool)
  | readOverride
  | rand
  | construct (placebo : Bool) (duration : Int)
  | destroy (s : σ)
  | isActive (s : σ)
  | timeLeft (s : σ)
  deriving DecidableEq, Repr

/-- What one entry point did: result code, out-parameter, the new value of
`g_activeTimer`, and the calls made, in order. -/
structure Outcome (σ ρ : Type) where
  hr : HRESULT
  result : ρ
  g_activeTimer : Option σ
  calls : List (Call σ)

/-- What `Start` reads from its surroundings: the clock, the result of
`try_get_registry_value_dword(..., L"Duration")` (an exception, or an optional
`DWORD`), and the value returned by `rand()`. -/
structure StartEnv where
  now : Nat
  durationOverride : Except Int (Option Nat)
  randDraw : Nat

/-! ## The entry points -/

/-- Lines 55-59 of `Start`: the default, replaced by the override whenever the
optional holds a value. -/
def quietDuration (durationOverride : Option Nat) : Int :=
  match durationOverride with
  | some v => (v : Int)
  | none => DEFAULT_QUIET_DURATION

/-- Line 62 of `Start`: `bool placebo = (rand() % 100) < 5;`. -/
def isPlacebo (draw : Nat) : Bool := decide (draw % 100 < 5)

/-- `unique_ptr::reset(p)` on `g_activeTimer`: the old object, if any, is
destroyed after the new pointer is stored. -/
def resetCalls {σ : Type} (old : Option σ) : List (Call σ) :=
  match old with
  | some s => [Call.destroy s]
  | none => []

/-- `QuietBackgroundProcessesSession::Start`.  The out-parameter is `none` when
`*result` was never written. -/
def Start {σ Table : Type} (ops : SessionOps σ Table) (env : StartEnv)
    (g : Option σ) : Outcome σ (Option Int) :=
  match g with
  | some s =>
    -- g_activeTimer->Cancel(nullptr);
    let c := ops.Cancel s false env.now
    match c.error with
    | some exn => ⟨CATCH_RETURN exn, none, some c.session, [Call.cancel s false]⟩
    | none =>
      match env.durationOverride with
      | Except.error exn =>
        ⟨CATCH_RETURN exn, none, some c.session, [Call.cancel s false, Call.readOverride]⟩
      | Except.ok ov =>
        let duration := quietDuration ov
        let placebo := isPlacebo env.randDraw
        match ops.construct placebo duration env.now with
        | Except.error exn =>
          ⟨CATCH_RETURN exn, none, some c.session,
            [Call.cancel s false, Call.readOverride, Call.rand,
              Call.construct placebo duration]⟩
        | Except.ok t =>
          -- g_activeTimer.reset(...) is done; *result = g_activeTimer->TimeLeftInSeconds().count();
          match ops.TimeLeftInSeconds t env.now with
          | Except.error exn =>
            ⟨CATCH_RETURN exn, none, some t,
              [Call.cancel s false, Call.readOverride, Call.rand,
                Call.construct placebo duration] ++ resetCalls (some c.session)
                ++ [Call.timeLeft t]⟩
          | Except.ok left =>
            ⟨HRESULT.S_OK, some left, some t,
              [Call.cancel s false, Call.readOverride, Call.rand,
                Call.construct placebo duration] ++ resetCalls (some c.session)
                ++ [Call.timeLeft t]⟩
  | none =>
    match env.durationOverride with
    | Except.error exn => ⟨CATCH_RETURN exn, none, none, [Call.readOverride]⟩
    | Except.ok ov =>
      let duration := quietDuration ov
      let placebo := isPlacebo env.randDraw
      match ops.construct placebo duration env.now with
      | Except.error exn =>
        ⟨CATCH_RETURN exn, none, none,
          [Call.readOverride, Call.rand, Call.construct placebo duration]⟩
      | Except.ok t =>
        match ops.TimeLeftInSeconds t env.now with
        | Except.error exn =>
          ⟨CATCH_RETURN exn, none, some t,
            [Call.readOverride, Call.rand, Call.construct placebo duration]
              ++ resetCalls none ++ [Call.timeLeft t]⟩
        | Except.ok left =>
          ⟨HRESULT.S_OK, some left, some t,
            [Call.readOverride, Call.rand, Call.construct placebo duration]
              ++ resetCalls none ++ [Call.timeLeft t]⟩

/-- `QuietBackgroundProcessesSession::Stop`.  The out-parameter is the table
pointer, `none` being `nullptr`. -/
def Stop {σ Table : Type} (ops : SessionOps σ Table) (now : Nat)
    (g : Option σ) : Outcome σ (Option Table) :=
  match g with
  | some s =>
    -- g_activeTimer->Cancel(result);
    let c := ops.Cancel s true now
    match c.error with
    | some exn => ⟨CATCH_RETURN exn, c.table, some c.session, [Call.cancel s true]⟩
    | none =>
      -- g_activeTimer.reset();
      ⟨HRESULT.S_OK, c.table, none, [Call.cancel s true] ++ resetCalls (some c.session)⟩
  | none => ⟨HRESULT.S_OK, none, none, []⟩

/-- `QuietBackgroundProcessesSession::get_IsActive`.  `*value = false` is
stored before the session is asked, so that is the value left when the query
throws. -/
def get_IsActive {σ Table : Type} (ops : SessionOps σ Table) (now : Nat)
    (g : Option σ) : Outcome σ Bool :=
  match g with
  | some s =>
    match ops.IsActive s now with
    | Except.error exn => ⟨CATCH_RETURN exn, false, some s, [Call.isActive s]⟩
    | Except.ok active => ⟨HRESULT.S_OK, active, some s, [Call.isActive s]⟩
  | none => ⟨HRESULT.S_OK, false, none, []⟩

/-- `QuietBackgroundProcessesSession::get_TimeLeftInSeconds`.  `*value = 0` is
stored before the session is asked, so that is the value left when the query
throws. -/
def get_TimeLeftInSeconds {σ Table : Type} (ops : SessionOps σ Table) (now : Nat)
    (g : Option σ) : Outcome σ Int :=
  match g with
  | some s =>
    match ops.TimeLeftInSeconds s now with
    | Except.error exn => ⟨CATCH_RETURN exn, 0, some s, [Call.timeLeft s]⟩
    | Except.ok left => ⟨HRESULT.S_OK, left, some s, [Call.timeLeft s]⟩
  | none => ⟨HRESULT.S_OK, 0, none, []⟩

/-! ## Observations on a run -/

/-- The manager after a sequence of `Start` calls, whatever their results. -/
def afterStarts {σ Table : Type} (ops : SessionOps σ Table) (g : Option σ)
    (envs : List StartEnv) : Option σ :=
  envs.foldl (fun slot env => (Start ops env slot).g_activeTimer) g

/-- The sessions the manager holds. -/
def heldSessions {σ : Type} (g : Option σ) : List σ := g.toList

/-- The arguments of the constructor calls in a call list. -/
def constructArgs {σ : Type} (calls : List (Call σ)) : List (Bool × Int) :=
  calls.filterMap (fun c =>
    match c with
    | Call.construct p d => some (p, d)
    | _ => none)

/-- The `Cancel` calls in a call list: the session and whether a table was
asked for. -/
def cancelArgs {σ : Type} (calls : List (Call σ)) : List (σ × Bool) :=
  calls.filterMap (fun c =>
    match c with
    | Call.cancel s w => some (s, w)
    | _ => none)

/-- How many of the draws `0 .. n-1` select the placebo. -/
def placeboDraws (n : Nat) : Nat := (List.range n).countP isPlacebo

/-! ## A session following the prose specification -/

/-- Modelled from the spec: the enumeration `SessionState` of section 3
(`TimedQuietSession.h` is not among the sources). -/
inductive SessionState where
  | Idle
  | Running
  | Cancelled
  | Completed
  deriving DecidableEq, Repr

/-- Modelled from the spec: `ProcessPerformanceSummary` of section 3 (its
declaration is not among the sources). -/
structure ProcessPerformanceSummary where
  pid : Nat
  name : String
  cpuTime : Nat
  sampleCount : Nat
  firstSeen : Nat
  lastSeen : Nat
  deriving DecidableEq, Repr

/-- Modelled from the spec: `PerformanceTable` of section 3, the ordered
sequence of summaries. -/
abbrev PerformanceTable := List ProcessPerformanceSummary

/-- Modelled from the spec: `TimedQuietSession` of section 3 (the class of
`TimedQuietSession.h`, which is not among the sources): creation time,
requested duration, placebo flag, state, and the recorder, represented by the
table it yields when stopped.  `state` is the last state entered by a call; the
timer-driven move to `Completed` is read off the clock by `stateAt`. -/
structure TimedQuietSession where
  creationTime : Nat
  requestedDuration : Int
  placebo : Bool
  state : SessionState
  recorder : PerformanceTable
  deriving DecidableEq, Repr

/-- Modelled from the spec: section 4.2, deadline = creation time + requested
duration. -/
def TimedQuietSession.deadline (s : TimedQuietSession) : Int :=
  (s.creationTime : Int) + s.requestedDuration

/-- Modelled from the spec: section 4.2, the state of the session at time
`now`: a running session whose deadline has elapsed is `Completed`. -/
def TimedQuietSession.stateAt (s : TimedQuietSession) (now : Nat) : SessionState :=
  if s.state = SessionState.Running ∧ s.deadline ≤ (now : Int) then SessionState.Completed
  else s.state

/-- Modelled from the spec: section 4.2, a session is constructed `Running`. -/
def TimedQuietSession.create (placebo : Bool) (duration : Int) (now : Nat) :
    TimedQuietSession :=
  { creationTime := now, requestedDuration := duration, placebo := placebo,
    state := SessionState.Running, recorder := [] }

/-- Modelled from the spec: section 4.2, `IsActive()` is true only in
`Running`. -/
def TimedQuietSession.IsActive (s : TimedQuietSession) (now : Nat) : Bool :=
  decide (s.stateAt now = SessionState.Running)

/-- Modelled from the spec: section 4.2, `TimeLeft()` is deadline - now clamped
to at least 0 in `Running`, and 0 in any terminal state. -/
def TimedQuietSession.TimeLeftInSeconds (s : TimedQuietSession) (now : Nat) : Int :=
  if s.stateAt now = SessionState.Running then max 0 (s.deadline - (now : Int)) else 0

/-- Modelled from the spec: section 4.2, explicit `Cancel()` moves a session
that is not yet terminal to `Cancelled`, is a no-op on a terminal one, and
hands out the finalized table when one is asked for. -/
def TimedQuietSession.Cancel (s : TimedQuietSession) (wantTable : Bool) (now : Nat) :
    CancelResult TimedQuietSession PerformanceTable :=
  { session :=
      { s with state :=
          match s.stateAt now with
          | SessionState.Completed => SessionState.Completed
          | _ => SessionState.Cancelled },
    table := if wantTable then some s.recorder else none,
    error := none }

/-- Modelled from the spec: the operations of `TimedQuietSession` (sections 4.1
and 4.2), none of which fails. -/
def specOps : SessionOps TimedQuietSession PerformanceTable :=
  { construct := fun placebo duration now =>
      Except.ok (TimedQuietSession.create placebo duration now),
    Cancel := TimedQuietSession.Cancel,
    IsActive := fun s now => Except.ok (s.IsActive now),
    TimeLeftInSeconds := fun s now => Except.ok (s.TimeLeftInSeconds now) }

/-- A table with a single summary. -/
def sampleTable : PerformanceTable :=
  [{ pid := 4, name := "svc", cpuTime := 10, sampleCount := 2, firstSeen := 0, lastSeen := 5 }]

/-- A session created at time 0 for 100 seconds whose recorder holds
`sampleTable`: running before time 100, completed by its timer from then on. -/
def sampleSession : TimedQuietSession :=
  { creationTime := 0, requestedDuration := 100, placebo := false,
    state := SessionState.Running, recorder := sampleTable }

/-- A `Start` at time 10 with no override and draw 3. -/
def envDefault : StartEnv := { now := 10, durationOverride := Except.ok none, randDraw := 3 }

/-- A `Start` at time 20 with an override of 60 seconds and draw 41. -/
def envSixty : StartEnv := { now := 20, durationOverride := Except.ok (some 60), randDraw := 41 }

/-- A `Start` at time 10 with a stored override of 0 and draw 3. -/
def envZero : StartEnv := { now := 10, durationOverride := Except.ok (some 0), randDraw := 3 }

/-! ## Lemmas on single steps -/

section Steps

variable {σ Table : Type}

/-- A `Start` that returns `S_OK` read the override, built a session from the
draw and the chosen duration, asked it for its remaining time, and produced
exactly this outcome. -/
theorem Start_ok_outcome (ops : SessionOps σ Table) (env : StartEnv) (g : Option σ)
    (hok : (Start ops env g).hr = HRESULT.S_OK) :
    ∃ ov t left, env.durationOverride = Except.ok ov ∧
      ops.construct (isPlacebo env.randDraw) (quietDuration ov) env.now = Except.ok t ∧
      ops.TimeLeftInSeconds t env.now = Except.ok left ∧
      (∀ s, g = some s → (ops.Cancel s false env.now).error = none) ∧
      Start ops env g =
        ⟨HRESULT.S_OK, some left, some t,
          (match g with
            | some s => [Call.cancel s false]
            | none => []) ++
          [Call.readOverride, Call.rand,
            Call.construct (isPlacebo env.randDraw) (quietDuration ov)] ++
          resetCalls (g.map (fun s => (ops.Cancel s false env.now).session)) ++
          [Call.timeLeft t]⟩ := by
  cases g with
  | none =>
    cases hov : env.durationOverride with
    | error e => simp [Start, hov, CATCH_RETURN] at hok
    | ok ov =>
      cases hc : ops.construct (isPlacebo env.randDraw) (quietDuration ov) env.now with
      | error e => simp [Start, hov, hc, CATCH_RETURN] at hok
      | ok t =>
        cases hq : ops.TimeLeftInSeconds t env.now with
        | error e => simp [Start, hov, hc, hq, CATCH_RETURN] at hok
        | ok left =>
          exact ⟨ov, t, left, rfl, hc, hq, by simp, by simp [Start, hov, hc, hq, resetCalls]⟩
  | some s =>
    cases hce : (ops.Cancel s false env.now).error with
    | some e => simp [Start, hce, CATCH_RETURN] at hok
    | none =>
      cases hov : env.durationOverride with
      | error e => simp [Start, hce, hov, CATCH_RETURN] at hok
      | ok ov =>
        cases hc : ops.construct (isPlacebo env.randDraw) (quietDuration ov) env.now with
        | error e => simp [Start, hce, hov, hc, CATCH_RETURN] at hok
        | ok t =>
          cases hq : ops.TimeLeftInSeconds t env.now with
          | error e => simp [Start, hce, hov, hc, hq, CATCH_RETURN] at hok
          | ok left =>
            refine ⟨ov, t, left, rfl, hc, hq, ?_, ?_⟩
            · intro s1 hs1
              cases hs1
              exact hce
            · simp [Start, hce, hov, hc, hq, resetCalls]

/-- A `Stop` on a held session returns `S_OK` exactly when `Cancel` did not
throw. -/
theorem Stop_ok_iff (ops : SessionOps σ Table) (now : Nat) (s : σ) :
    (Stop ops now (some s)).hr = HRESULT.S_OK ↔ (ops.Cancel s true now).error = none := by
  cases hce : (ops.Cancel s true now).error with
  | some e => simp [Stop, hce, CATCH_RETURN]
  | none => simp [Stop, hce]

/-- The outcome of a `Stop` on a held session whose `Cancel` did not throw. -/
theorem Stop_some_outcome (ops : SessionOps σ Table) (now : Nat) (s : σ)
    (hce : (ops.Cancel s true now).error = none) :
    Stop ops now (some s) =
      ⟨HRESULT.S_OK, (ops.Cancel s true now).table, none,
        [Call.cancel s true, Call.destroy (ops.Cancel s true now).session]⟩ := by
  simp [Stop, hce, resetCalls]

/-- On a held session, `get_IsActive` passes on what the query returned. -/
theorem get_IsActive_ok (ops : SessionOps σ Table) (now : Nat) (s : σ) (active : Bool)
    (hq : ops.IsActive s now = Except.ok active) :
    get_IsActive ops now (some s) = ⟨HRESULT.S_OK, active, some s, [Call.isActive s]⟩ := by
  simp [get_IsActive, hq]

/-- On a held session whose query throws, `get_IsActive` fails and leaves
false. -/
theorem get_IsActive_throws (ops : SessionOps σ Table) (now : Nat) (s : σ) (exn : Int)
    (hq : ops.IsActive s now = Except.error exn) :
    get_IsActive ops now (some s) = ⟨CATCH_RETURN exn, false, some s, [Call.isActive s]⟩ := by
  simp [get_IsActive, hq]

/-- On a held session, `get_TimeLeftInSeconds` passes on what the query
returned. -/
theorem get_TimeLeftInSeconds_ok (ops : SessionOps σ Table) (now : Nat) (s : σ) (left : Int)
    (hq : ops.TimeLeftInSeconds s now = Except.ok left) :
    get_TimeLeftInSeconds ops now (some s)
      = ⟨HRESULT.S_OK, left, some s, [Call.timeLeft s]⟩ := by
  simp [get_TimeLeftInSeconds, hq]

/-- On a held session whose query throws, `get_TimeLeftInSeconds` fails and
leaves 0. -/
theorem get_TimeLeftInSeconds_throws (ops : SessionOps σ Table) (now : Nat) (s : σ)
    (exn : Int) (hq : ops.TimeLeftInSeconds s now = Except.error exn) :
    get_TimeLeftInSeconds ops now (some s)
      = ⟨CATCH_RETURN exn, 0, some s, [Call.timeLeft s]⟩ := by
  simp [get_TimeLeftInSeconds, hq]

end Steps

/-! ## Lemmas on the specified session -/

/-- The remaining time of a specified session is never negative. -/
theorem TimedQuietSession.TimeLeftInSeconds_nonneg (s : TimedQuietSession) (now : Nat) :
    0 ≤ s.TimeLeftInSeconds now := by
  unfold TimedQuietSession.TimeLeftInSeconds
  split
  · exact le_max_left _ _
  · exact le_refl _

/-- A freshly constructed specified session with a non-negative duration has
the whole duration left. -/
theorem TimedQuietSession.TimeLeftInSeconds_create (placebo : Bool) (duration : Int)
    (now : Nat) (hd : 0 ≤ duration) :
    (TimedQuietSession.create placebo duration now).TimeLeftInSeconds now = duration := by
  unfold TimedQuietSession.TimeLeftInSeconds TimedQuietSession.stateAt
    TimedQuietSession.deadline TimedQuietSession.create
  simp only [true_and]
  by_cases h0 : duration = 0
  · subst h0; simp
  · have hpos : 0 < duration := lt_of_le_of_ne hd (Ne.symm h0)
    have hnot : ¬ ((now : Int) + duration ≤ (now : Int)) := by omega
    simp only [hnot, if_false, if_true]
    simp
    omega

/-- Closed form of the count of placebo draws among `0 .. n-1`. -/
theorem placeboDraws_eq (n : Nat) : placeboDraws n = 5 * (n / 100) + min (n % 100) 5 := by
  induction n with
  | zero => rfl
  | succ k ih =>
    unfold placeboDraws at ih ⊢
    rw [List.range_succ, List.countP_append, ih]
    by_cases h : k % 100 < 5
    · have : isPlacebo k = true := by simp [isPlacebo, h]
      simp only [List.countP_cons, List.countP_nil, this]
      simp
      omega
    · have : isPlacebo k = false := by simp [isPlacebo, h]
      simp only [List.countP_cons, List.countP_nil, this]
      simp
      omega

/-! ## The claims -/

section Claims

variable {σ Table : Type}

/-- C1: after any sequence of `Start` calls, a `Start` that succeeds leaves the
manager holding exactly one session, the one it constructed; a session held
before the call was sent `Cancel` with no table requested before the
constructor ran and was destroyed after it, nothing else being done with it; so
at most one held session is running at any time. -/
theorem Start_supersedes_previous (ops : SessionOps σ Table) (g : Option σ)
    (pre : List StartEnv) (env : StartEnv)
    (hok : (Start ops env (afterStarts ops g pre)).hr = HRESULT.S_OK) :
    ∃ ov t, env.durationOverride = Except.ok ov ∧
      ops.construct (isPlacebo env.randDraw) (quietDuration ov) env.now = Except.ok t ∧
      afterStarts ops g (pre ++ [env]) = some t ∧
      heldSessions (afterStarts ops g (pre ++ [env])) = [t] ∧
      (∀ later, ((heldSessions (afterStarts ops g (pre ++ [env]))).filter
          (fun s => (get_IsActive ops later (some s)).result)).length ≤ 1) ∧
      (afterStarts ops g pre = none →
        (Start ops env (afterStarts ops g pre)).calls =
          [Call.readOverride, Call.rand,
            Call.construct (isPlacebo env.randDraw) (quietDuration ov), Call.timeLeft t]) ∧
      (∀ s, afterStarts ops g pre = some s →
        (ops.Cancel s false env.now).error = none ∧
        (Start ops env (afterStarts ops g pre)).calls =
          [Call.cancel s false, Call.readOverride, Call.rand,
            Call.construct (isPlacebo env.randDraw) (quietDuration ov),
            Call.destroy (ops.Cancel s false env.now).session, Call.timeLeft t]) := by
  obtain ⟨ov, t, left, hov, hc, _, hcancel, hout⟩ := Start_ok_outcome ops env _ hok
  have hafter : afterStarts ops g (pre ++ [env]) = some t := by
    simp only [afterStarts, List.foldl_append, List.foldl_cons, List.foldl_nil]
    have := congrArg Outcome.g_activeTimer hout
    simpa [afterStarts] using this
  refine ⟨ov, t, hov, hc, hafter, ?_, ?_, ?_, ?_⟩
  · simp [hafter, heldSessions]
  · intro later
    rw [hafter]
    simp only [heldSessions, Option.toList]
    exact le_trans (List.length_filter_le _ _) (by simp)
  · intro hnone
    rw [hout, hnone]
    simp [resetCalls]
  · intro s hs
    refine ⟨hcancel s hs, ?_⟩
    rw [hout, hs]
    simp [resetCalls]

/-- Witness for C1: two `Start` calls in a row on the specified session. -/
theorem Start_supersedes_previous_witness :
    (Start specOps envSixty (afterStarts specOps none [envDefault])).hr = HRESULT.S_OK ∧
    ∃ ov t, envSixty.durationOverride = Except.ok ov ∧
      specOps.construct (isPlacebo envSixty.randDraw) (quietDuration ov) envSixty.now
        = Except.ok t ∧
      afterStarts specOps none ([envDefault] ++ [envSixty]) = some t ∧
      heldSessions (afterStarts specOps none ([envDefault] ++ [envSixty])) = [t] ∧
      (∀ later, ((heldSessions (afterStarts specOps none ([envDefault] ++ [envSixty]))).filter
          (fun s => (get_IsActive specOps later (some s)).result)).length ≤ 1) ∧
      (afterStarts specOps none [envDefault] = none →
        (Start specOps envSixty (afterStarts specOps none [envDefault])).calls =
          [Call.readOverride, Call.rand,
            Call.construct (isPlacebo envSixty.randDraw) (quietDuration ov),
            Call.timeLeft t]) ∧
      (∀ s, afterStarts specOps none [envDefault] = some s →
        (specOps.Cancel s false envSixty.now).error = none ∧
        (Start specOps envSixty (afterStarts specOps none [envDefault])).calls =
          [Call.cancel s false, Call.readOverride, Call.rand,
            Call.construct (isPlacebo envSixty.randDraw) (quietDuration ov),
            Call.destroy (specOps.Cancel s false envSixty.now).session, Call.timeLeft t]) :=
  ⟨by decide, Start_supersedes_previous specOps none [envDefault] envSixty (by decide)⟩

/-- C2: with no session held, `Stop` returns `S_OK` and the null table, leaves
`g_activeTimer` empty and calls nothing: no `Cancel`, hence none of the
persistence or telemetry work a session does when it is cancelled. -/
theorem Stop_without_session (ops : SessionOps σ Table) (now : Nat) :
    Stop ops now none = ⟨HRESULT.S_OK, none, none, []⟩ ∧
      cancelArgs (Stop ops now none).calls = [] := by
  constructor <;> rfl

/-- C3: a `Stop` that succeeds on a held session `s` calls `Cancel` on `s`
exactly once, asking for the table, returns the table that call produced and
empties `g_activeTimer`; from then on `get_IsActive` gives false,
`get_TimeLeftInSeconds` gives 0 and another `Stop` gives the null table. -/
theorem Stop_cancels_and_clears (ops : SessionOps σ Table) (now : Nat) (s : σ)
    (hok : (Stop ops now (some s)).hr = HRESULT.S_OK) :
    cancelArgs (Stop ops now (some s)).calls = [(s, true)] ∧
      (Stop ops now (some s)).calls =
        [Call.cancel s true, Call.destroy (ops.Cancel s true now).session] ∧
      (Stop ops now (some s)).result = (ops.Cancel s true now).table ∧
      (Stop ops now (some s)).g_activeTimer = none ∧
      ∀ later,
        (get_IsActive ops later (Stop ops now (some s)).g_activeTimer).result = false ∧
        (get_TimeLeftInSeconds ops later (Stop ops now (some s)).g_activeTimer).result = 0 ∧
        (Stop ops later (Stop ops now (some s)).g_activeTimer).result = none ∧
        (Stop ops later (Stop ops now (some s)).g_activeTimer).hr = HRESULT.S_OK := by
  have hce := (Stop_ok_iff ops now s).mp hok
  rw [Stop_some_outcome ops now s hce]
  refine ⟨by simp [cancelArgs], rfl, rfl, rfl, ?_⟩
  intro later
  exact ⟨rfl, rfl, rfl, rfl⟩

/-- Witness for C3: stopping the sample session at time 30. -/
theorem Stop_cancels_and_clears_witness :
    (Stop specOps 30 (some sampleSession)).hr = HRESULT.S_OK ∧
    (cancelArgs (Stop specOps 30 (some sampleSession)).calls = [(sampleSession, true)] ∧
      (Stop specOps 30 (some sampleSession)).calls =
        [Call.cancel sampleSession true,
          Call.destroy (specOps.Cancel sampleSession true 30).session] ∧
      (Stop specOps 30 (some sampleSession)).result
        = (specOps.Cancel sampleSession true 30).table ∧
      (Stop specOps 30 (some sampleSession)).g_activeTimer = none ∧
      ∀ later,
        (get_IsActive specOps later
          (Stop specOps 30 (some sampleSession)).g_activeTimer).result = false ∧
        (get_TimeLeftInSeconds specOps later
          (Stop specOps 30 (some sampleSession)).g_activeTimer).result = 0 ∧
        (Stop specOps later (Stop specOps 30 (some sampleSession)).g_activeTimer).result
          = none ∧
        (Stop specOps later (Stop specOps 30 (some sampleSession)).g_activeTimer).hr
          = HRESULT.S_OK) :=
  ⟨by decide, Stop_cancels_and_clears specOps 30 sampleSession (by decide)⟩

/-- C4, as stated, fails: with a stored override of 0 the session is built with
duration 0, not with the 7200 seconds of the default. -/
theorem Start_zero_override_counterexample :
    (constructArgs (Start specOps envZero none).calls).map Prod.snd = [0] ∧
      (constructArgs (Start specOps envZero none).calls).map Prod.snd
        ≠ [DEFAULT_QUIET_DURATION] ∧
      (Start specOps envZero none).g_activeTimer.map TimedQuietSession.requestedDuration
        = some 0 ∧
      DEFAULT_QUIET_DURATION = 7200 := by
  decide

/-- C4, amended: a `Start` that succeeds constructs one session, whose duration
is the override value in seconds whenever an override is present (0 included),
and 7200 seconds when it is absent. -/
theorem Start_duration (ops : SessionOps σ Table) (env : StartEnv) (g : Option σ)
    (ov : Option Nat) (hov : env.durationOverride = Except.ok ov)
    (hok : (Start ops env g).hr = HRESULT.S_OK) :
    (∀ v, ov = some v → (constructArgs (Start ops env g).calls).map Prod.snd = [(v : Int)]) ∧
      (ov = none → (constructArgs (Start ops env g).calls).map Prod.snd = [7200]) := by
  obtain ⟨ov1, t, left, hov1, _, _, _, hout⟩ := Start_ok_outcome ops env g hok
  rw [hov] at hov1
  cases hov1
  have hargs : (constructArgs (Start ops env g).calls).map Prod.snd = [quietDuration ov] := by
    rw [hout]
    cases g <;> simp [constructArgs, resetCalls]
  constructor
  · intro v hv
    rw [hargs, hv]
    rfl
  · intro hnone
    rw [hargs, hnone]
    rfl

/-- Witness for C4: an override of 60 seconds while the sample session is
held. -/
theorem Start_duration_witness :
    envSixty.durationOverride = Except.ok (some 60) ∧
    (Start specOps envSixty (some sampleSession)).hr = HRESULT.S_OK ∧
    ((∀ v : Nat, some 60 = some v →
        (constructArgs (Start specOps envSixty (some sampleSession)).calls).map Prod.snd
          = [(v : Int)]) ∧
      ((some 60 : Option Nat) = none →
        (constructArgs (Start specOps envSixty (some sampleSession)).calls).map Prod.snd
          = [7200])) :=
  ⟨rfl, by decide,
    Start_duration specOps envSixty (some sampleSession) (some 60) rfl (by decide)⟩

/-- C5: with no override, and a session class whose fresh sessions report their
whole (non-negative) duration as time left, a `Start` that succeeds constructs
a session of 7200 seconds, holds it, and returns 7200, whatever was held
before. -/
theorem Start_default_duration (ops : SessionOps σ Table) (env : StartEnv) (g : Option σ)
    (hnone : env.durationOverride = Except.ok none)
    (hok : (Start ops env g).hr = HRESULT.S_OK)
    (hfull : ∀ p d now t, 0 ≤ d → ops.construct p d now = Except.ok t →
      ops.TimeLeftInSeconds t now = Except.ok d) :
    ∃ t, ops.construct (isPlacebo env.randDraw) 7200 env.now = Except.ok t ∧
      (Start ops env g).g_activeTimer = some t ∧
      constructArgs (Start ops env g).calls = [(isPlacebo env.randDraw, 7200)] ∧
      (Start ops env g).result = some 7200 := by
  obtain ⟨ov, t, left, hov, hc, hq, _, hout⟩ := Start_ok_outcome ops env g hok
  rw [hnone] at hov
  cases hov
  have hq0 : quietDuration none = 7200 := rfl
  rw [hq0] at hc hout
  refine ⟨t, hc, ?_, ?_, ?_⟩
  · rw [hout]
  · rw [hout]
    cases g <;> simp [constructArgs, resetCalls]
  · rw [hout]
    have hleft := hfull _ 7200 env.now t (by norm_num) hc
    rw [hq] at hleft
    cases hleft
    rfl

/-- Witness for C5: a default `Start` while the sample session is held. -/
theorem Start_default_duration_witness :
    envDefault.durationOverride = Except.ok none ∧
    (Start specOps envDefault (some sampleSession)).hr = HRESULT.S_OK ∧
    (∀ p d now t, 0 ≤ d → specOps.construct p d now = Except.ok t →
      specOps.TimeLeftInSeconds t now = Except.ok d) ∧
    ∃ t, specOps.construct (isPlacebo envDefault.randDraw) 7200 envDefault.now
        = Except.ok t ∧
      (Start specOps envDefault (some sampleSession)).g_activeTimer = some t ∧
      constructArgs (Start specOps envDefault (some sampleSession)).calls
        = [(isPlacebo envDefault.randDraw, 7200)] ∧
      (Start specOps envDefault (some sampleSession)).result = some 7200 :=
  have hfull : ∀ p d now t, 0 ≤ d → specOps.construct p d now = Except.ok t →
      specOps.TimeLeftInSeconds t now = Except.ok d := by
    intro p d now t hd ht
    simp only [specOps, Except.ok.injEq] at ht
    subst ht
    exact congrArg Except.ok (TimedQuietSession.TimeLeftInSeconds_create p d now hd)
  ⟨rfl, by decide, hfull,
    Start_default_duration specOps envDefault (some sampleSession) rfl (by decide) hfull⟩

/-- C6, as stated, fails: of the 32768 equally likely draws `0 .. RAND_MAX`,
1640 select the placebo, and 1640/32768 is not 5/100. -/
theorem placebo_fraction_counterexample :
    ¬ ((placeboDraws (RAND_MAX + 1) : ℚ) / ((RAND_MAX + 1 : Nat) : ℚ) = 5 / 100) := by
  rw [placeboDraws_eq]
  norm_num [RAND_MAX]

/-- C6, amended: the placebo flag a successful `Start` gives to the new session
is `draw % 100 < 5`, a function of the draw alone, whatever the override, the
session class and the session held before; of the 32768 draws `0 .. RAND_MAX`
exactly 1640 select the placebo, a fraction of 205/4096, which is within 1/20000
of 5/100. -/
theorem Start_placebo (ops : SessionOps σ Table) (env : StartEnv) (g : Option σ)
    (hok : (Start ops env g).hr = HRESULT.S_OK) :
    (constructArgs (Start ops env g).calls).map Prod.fst = [decide (env.randDraw % 100 < 5)] ∧
      placeboDraws (RAND_MAX + 1) = 1640 ∧
      (placeboDraws (RAND_MAX + 1) : ℚ) / ((RAND_MAX + 1 : Nat) : ℚ) = 205 / 4096 ∧
      |(placeboDraws (RAND_MAX + 1) : ℚ) / ((RAND_MAX + 1 : Nat) : ℚ) - 5 / 100| < 1 / 20000 := by
  obtain ⟨ov, t, left, _, _, _, _, hout⟩ := Start_ok_outcome ops env g hok
  have hcount : placeboDraws (RAND_MAX + 1) = 1640 := by
    rw [placeboDraws_eq]
    norm_num [RAND_MAX]
  refine ⟨?_, hcount, ?_, ?_⟩
  · rw [hout]
    cases g <;> simp [constructArgs, resetCalls, isPlacebo]
  · rw [hcount]
    norm_num [RAND_MAX]
  · rw [hcount]
    norm_num [RAND_MAX, abs_lt]

/-- Witness for C6: the draw 3 selects the placebo under an override of 0. -/
theorem Start_placebo_witness :
    (Start specOps envZero (some sampleSession)).hr = HRESULT.S_OK ∧
    ((constructArgs (Start specOps envZero (some sampleSession)).calls).map Prod.fst
        = [decide (envZero.randDraw % 100 < 5)] ∧
      placeboDraws (RAND_MAX + 1) = 1640 ∧
      (placeboDraws (RAND_MAX + 1) : ℚ) / ((RAND_MAX + 1 : Nat) : ℚ) = 205 / 4096 ∧
      |(placeboDraws (RAND_MAX + 1) : ℚ) / ((RAND_MAX + 1 : Nat) : ℚ) - 5 / 100|
        < 1 / 20000) :=
  ⟨by decide, Start_placebo specOps envZero (some sampleSession) (by decide)⟩

/-- C8, as stated, fails: at time 200 the sample session has been completed by
its timer and `get_IsActive` gives false, yet `Stop` calls `Cancel` on it,
returns its table rather than the null table, and empties `g_activeTimer`. -/
theorem Stop_completed_counterexample :
    (get_IsActive specOps 200 (some sampleSession)).result = false ∧
      sampleSession.stateAt 200 = SessionState.Completed ∧
      (Stop specOps 200 (some sampleSession)).result = some sampleTable ∧
      (Stop specOps 200 (some sampleSession)).result ≠ none ∧
      (Stop specOps 200 (some sampleSession)).g_activeTimer ≠ some sampleSession ∧
      cancelArgs (Stop specOps 200 (some sampleSession)).calls = [(sampleSession, true)] := by
  decide

/-- C8, amended: when `get_IsActive` gives false, `Stop` is a no-op returning
the null table only if no session is held; if a session that is not running is
held, a `Stop` whose `Cancel` does not throw still cancels that session once,
returns the table `Cancel` produced, and empties `g_activeTimer`. -/
theorem Stop_when_inactive (ops : SessionOps σ Table) (now : Nat) (g : Option σ)
    (hidle : (get_IsActive ops now g).result = false) :
    (g = none → Stop ops now g = ⟨HRESULT.S_OK, none, none, []⟩) ∧
      (∀ s, g = some s → (ops.Cancel s true now).error = none →
        ops.IsActive s now ≠ Except.ok true ∧
        Stop ops now g =
          ⟨HRESULT.S_OK, (ops.Cancel s true now).table, none,
            [Call.cancel s true, Call.destroy (ops.Cancel s true now).session]⟩) := by
  constructor
  · intro hg
    rw [hg]
    rfl
  · intro s hs hce
    subst hs
    refine ⟨?_, Stop_some_outcome ops now s hce⟩
    intro hact
    rw [get_IsActive_ok ops now s true hact] at hidle
    cases hidle

/-- Witness for C8: the sample session at time 200, after its deadline. -/
theorem Stop_when_inactive_witness :
    (get_IsActive specOps 200 (some sampleSession)).result = false ∧
    ((some sampleSession = none →
        Stop specOps 200 (some sampleSession) = ⟨HRESULT.S_OK, none, none, []⟩) ∧
      (∀ s, some sampleSession = some s → (specOps.Cancel s true 200).error = none →
        specOps.IsActive s 200 ≠ Except.ok true ∧
        Stop specOps 200 (some sampleSession) =
          ⟨HRESULT.S_OK, (specOps.Cancel s true 200).table, none,
            [Call.cancel s true, Call.destroy (specOps.Cancel s true 200).session]⟩)) :=
  ⟨by decide, Stop_when_inactive specOps 200 (some sampleSession) (by decide)⟩

/-- C9: `get_TimeLeftInSeconds` returns 0 when no session is held and otherwise
exactly what the held session reports; given a session class whose remaining
time is never negative, the value returned is never negative, in particular for
the session left by a `Start` under any override below 2^32; the call leaves
`g_activeTimer` as it was.  It returns `S_OK` unless the query of the held
session throws, in which case the value left is the 0 stored beforehand. -/
theorem get_TimeLeftInSeconds_value (ops : SessionOps σ Table) (now : Nat) (g : Option σ)
    (hclamp : ∀ s t left, ops.TimeLeftInSeconds s t = Except.ok left → 0 ≤ left) :
    (g = none →
        (get_TimeLeftInSeconds ops now g).result = 0 ∧
        (get_TimeLeftInSeconds ops now g).hr = HRESULT.S_OK) ∧
      (∀ s left, g = some s → ops.TimeLeftInSeconds s now = Except.ok left →
        (get_TimeLeftInSeconds ops now g).result = left ∧
        (get_TimeLeftInSeconds ops now g).hr = HRESULT.S_OK) ∧
      (∀ s exn, g = some s → ops.TimeLeftInSeconds s now = Except.error exn →
        (get_TimeLeftInSeconds ops now g).result = 0 ∧
        (get_TimeLeftInSeconds ops now g).hr = CATCH_RETURN exn) ∧
      0 ≤ (get_TimeLeftInSeconds ops now g).result ∧
      (get_TimeLeftInSeconds ops now g).g_activeTimer = g ∧
      (∀ (env : StartEnv) (d : Nat), env.durationOverride = Except.ok (some d) → d < 2 ^ 32 →
        0 ≤ (get_TimeLeftInSeconds ops now (Start ops env g).g_activeTimer).result) := by
  have hnonneg : ∀ slot : Option σ, 0 ≤ (get_TimeLeftInSeconds ops now slot).result := by
    intro slot
    cases slot with
    | none => exact le_refl _
    | some s =>
      cases hq : ops.TimeLeftInSeconds s now with
      | error exn =>
        rw [get_TimeLeftInSeconds_throws ops now s exn hq]
      | ok left =>
        rw [get_TimeLeftInSeconds_ok ops now s left hq]
        exact hclamp s now left hq
  have hslot : (get_TimeLeftInSeconds ops now g).g_activeTimer = g := by
    cases g with
    | none => rfl
    | some s =>
      cases hq : ops.TimeLeftInSeconds s now with
      | error exn => rw [get_TimeLeftInSeconds_throws ops now s exn hq]
      | ok left => rw [get_TimeLeftInSeconds_ok ops now s left hq]
  refine ⟨?_, ?_, ?_, hnonneg g, hslot, fun env _ _ _ => hnonneg _⟩
  · intro hg
    rw [hg]
    exact ⟨rfl, rfl⟩
  · intro s left hs hq
    rw [hs, get_TimeLeftInSeconds_ok ops now s left hq]
    exact ⟨rfl, rfl⟩
  · intro s exn hs hq
    rw [hs, get_TimeLeftInSeconds_throws ops now s exn hq]
    exact ⟨rfl, rfl⟩

/-- Witness for C9: the sample session read at time 30. -/
theorem get_TimeLeftInSeconds_value_witness :
    (∀ s t left, specOps.TimeLeftInSeconds s t = Except.ok left → 0 ≤ left) ∧
    ((some sampleSession = none →
        (get_TimeLeftInSeconds specOps 30 (some sampleSession)).result = 0 ∧
        (get_TimeLeftInSeconds specOps 30 (some sampleSession)).hr = HRESULT.S_OK) ∧
      (∀ s left, some sampleSession = some s →
        specOps.TimeLeftInSeconds s 30 = Except.ok left →
        (get_TimeLeftInSeconds specOps 30 (some sampleSession)).result = left ∧
        (get_TimeLeftInSeconds specOps 30 (some sampleSession)).hr = HRESULT.S_OK) ∧
      (∀ s exn, some sampleSession = some s →
        specOps.TimeLeftInSeconds s 30 = Except.error exn →
        (get_TimeLeftInSeconds specOps 30 (some sampleSession)).result = 0 ∧
        (get_TimeLeftInSeconds specOps 30 (some sampleSession)).hr = CATCH_RETURN exn) ∧
      0 ≤ (get_TimeLeftInSeconds specOps 30 (some sampleSession)).result ∧
      (get_TimeLeftInSeconds specOps 30 (some sampleSession)).g_activeTimer
        = some sampleSession ∧
      (∀ (env : StartEnv) (d : Nat), env.durationOverride = Except.ok (some d) → d < 2 ^ 32 →
        0 ≤ (get_TimeLeftInSeconds specOps 30
          (Start specOps env (some sampleSession)).g_activeTimer).result)) :=
  have hclamp : ∀ s t left, specOps.TimeLeftInSeconds s t = Except.ok left → 0 ≤ left := by
    intro s t left hq
    simp only [specOps, Except.ok.injEq] at hq
    rw [← hq]
    exact TimedQuietSession.TimeLeftInSeconds_nonneg s t
  ⟨hclamp, get_TimeLeftInSeconds_value specOps 30 (some sampleSession) hclamp⟩

/-- C10: for a session class whose `IsActive()` returns true exactly in state
Running, `get_IsActive` returns true if and only if a session is held and it is
Running: false on an empty manager and false for a held session that is not
Running; the call leaves `g_activeTimer` as it was.  It returns `S_OK` unless
the query of the held session throws, in which case the value left is the
false stored beforehand. -/
theorem get_IsActive_iff_running (ops : SessionOps σ Table) (Running : σ → Nat → Prop)
    (hrun : ∀ s t, ops.IsActive s t = Except.ok true ↔ Running s t) (now : Nat)
    (g : Option σ) :
    ((get_IsActive ops now g).result = true ↔ ∃ s, g = some s ∧ Running s now) ∧
      (g = none →
        (get_IsActive ops now g).result = false ∧
        (get_IsActive ops now g).hr = HRESULT.S_OK) ∧
      (∀ s, g = some s → ¬ Running s now → (get_IsActive ops now g).result = false) ∧
      (get_IsActive ops now g).g_activeTimer = g ∧
      (∀ s active, g = some s → ops.IsActive s now = Except.ok active →
        (get_IsActive ops now g).result = active ∧
        (get_IsActive ops now g).hr = HRESULT.S_OK) ∧
      (∀ s exn, g = some s → ops.IsActive s now = Except.error exn →
        (get_IsActive ops now g).result = false ∧
        (get_IsActive ops now g).hr = CATCH_RETURN exn) := by
  cases g with
  | none =>
    refine ⟨?_, fun _ => ⟨rfl, rfl⟩, ?_, rfl, ?_, ?_⟩
    · simp [get_IsActive]
    · intro s hs
      cases hs
    · intro s active hs
      cases hs
    · intro s exn hs
      cases hs
  | some s0 =>
    have hiff : (get_IsActive ops now (some s0)).result = true ↔ Running s0 now := by
      rw [← hrun s0 now]
      cases hq : ops.IsActive s0 now with
      | error exn =>
        rw [get_IsActive_throws ops now s0 exn hq]
        simp
      | ok active =>
        rw [get_IsActive_ok ops now s0 active hq]
        simp
    refine ⟨?_, ?_, ?_, ?_, ?_, ?_⟩
    · simp only [Option.some.injEq, exists_eq_left']
      exact hiff
    · intro hs
      cases hs
    · intro s hs hnot
      cases hs
      cases hres : (get_IsActive ops now (some s0)).result with
      | false => rfl
      | true => exact absurd (hiff.mp hres) hnot
    · cases hq : ops.IsActive s0 now with
      | error exn => rw [get_IsActive_throws ops now s0 exn hq]
      | ok active => rw [get_IsActive_ok ops now s0 active hq]
    · intro s active hs hq
      cases hs
      rw [get_IsActive_ok ops now s0 active hq]
      exact ⟨rfl, rfl⟩
    · intro s exn hs hq
      cases hs
      rw [get_IsActive_throws ops now s0 exn hq]
      exact ⟨rfl, rfl⟩

/-- Witness for C10: the specified session, Running meaning that its state at
the time of the call is `Running`. -/
theorem get_IsActive_iff_running_witness :
    (∀ s t, specOps.IsActive s t = Except.ok true ↔
      TimedQuietSession.stateAt s t = SessionState.Running) ∧
    (((get_IsActive specOps 30 (some sampleSession)).result = true ↔
        ∃ s, some sampleSession = some s ∧
          TimedQuietSession.stateAt s 30 = SessionState.Running) ∧
      (some sampleSession = none →
        (get_IsActive specOps 30 (some sampleSession)).result = false ∧
        (get_IsActive specOps 30 (some sampleSession)).hr = HRESULT.S_OK) ∧
      (∀ s, some sampleSession = some s →
        ¬ TimedQuietSession.stateAt s 30 = SessionState.Running →
        (get_IsActive specOps 30 (some sampleSession)).result = false) ∧
      (get_IsActive specOps 30 (some sampleSession)).g_activeTimer = some sampleSession ∧
      (∀ s active, some sampleSession = some s →
        specOps.IsActive s 30 = Except.ok active →
        (get_IsActive specOps 30 (some sampleSession)).result = active ∧
        (get_IsActive specOps 30 (some sampleSession)).hr = HRESULT.S_OK) ∧
      (∀ s exn, some sampleSession = some s →
        specOps.IsActive s 30 = Except.error exn →
        (get_IsActive specOps 30 (some sampleSession)).result = false ∧
        (get_IsActive specOps 30 (some sampleSession)).hr = CATCH_RETURN exn)) :=
  have hrun : ∀ s t, specOps.IsActive s t = Except.ok true ↔
      TimedQuietSession.stateAt s t = SessionState.Running := by
    intro s t
    simp [specOps, TimedQuietSession.IsActive]
  ⟨hrun,
    get_IsActive_iff_running specOps
      (fun s t => TimedQuietSession.stateAt s t = SessionState.Running) hrun 30
      (some sampleSession)⟩

end Claims

end QuietBackgroundProcesses
